import Mathlib

/-!
Shallow embedding of the transaction-api-service ledger (src/app).

Money is modelled in integer cents: the source stores balances and amounts
as fixed-point decimals of scale 2 (`Numeric(15, 2)` / `Decimal`), so every
value is an exact integer number of cents and every comparison is exact.
Database-synthesised columns (`id` autoincrement, `created_at` timestamps)
are outside the model; `db.commit` is modelled by returning the updated
`LedgerState`, `db.rollback` by returning the unchanged input state.
-/

namespace TransactionApi

/-- Embeds the string comparison Python's `sorted` uses on `str`: code-point
lexicographic comparison of the character sequences (a strict prefix is
smaller). -/
def lexLt : List Char → List Char → Bool
  | _, [] => false
  | [], _ :: _ => true
  | a :: as, b :: bs => if a < b then true else if b < a then false else lexLt as bs

/-- Embeds Python's `<` on `str` via the underlying character list. -/
def strLt (a b : String) : Bool := lexLt a.data b.data

/-- Embeds `app.models.account.Account`: one row of the `accounts` table
(minus the database-synthesised `id` and `created_at`). `balance` is in
cents. -/
structure Account where
  account_id : String
  owner_name : String
  balance : Int
deriving Repr, DecidableEq

/-- Embeds `app.models.transaction.TransactionStatus`. -/
inductive TransactionStatus
  | pending
  | completed
  | failed
deriving Repr, DecidableEq

/-- Embeds `app.models.transaction.Transaction`: one row of the
`transactions` table (minus `id` and `created_at`). `amount` is in cents. -/
structure Transaction where
  transaction_id : String
  from_account_id : String
  to_account_id : String
  amount : Int
  status : TransactionStatus
  description : Option String
deriving Repr, DecidableEq

/-- Embeds the durable store: the two relations the Ledger Store owns, in
insertion order (`db.add` appends a row). -/
structure LedgerState where
  accounts : List Account
  transactions : List Transaction
deriving Repr, DecidableEq

/-- Embeds `db.query(Account).filter(Account.account_id == account_id).first()`. -/
def findAccount (st : LedgerState) (account_id : String) : Option Account :=
  st.accounts.find? (fun a => a.account_id == account_id)

/-- Embeds `db.query(Transaction).filter(Transaction.transaction_id == transaction_id).first()`. -/
def findTransaction (st : LedgerState) (transaction_id : String) : Option Transaction :=
  st.transactions.find? (fun t => t.transaction_id == transaction_id)

/-- Embeds `app.schemas.account.AccountCreate` (the request body of
`POST /accounts/`). -/
structure AccountCreate where
  account_id : String
  owner_name : String
  initial_balance : Int
deriving Repr, DecidableEq

/-- Embeds the pydantic field validators of `AccountCreate`
(src/app/schemas/account.py lines 11-15): `account_id` 1-50 chars,
`owner_name` 1-100 chars, `initial_balance >= 0` (`ge=0`, default `0.00`).
A request that violates any of these is rejected by the schema layer and
never reaches the handler. -/
def AccountCreate.valid (r : AccountCreate) : Prop :=
  1 ≤ r.account_id.length ∧ r.account_id.length ≤ 50
    ∧ 1 ≤ r.owner_name.length ∧ r.owner_name.length ≤ 100
    ∧ 0 ≤ r.initial_balance

/-- Embeds `app.schemas.transaction.TransferRequest` (the request body of
`POST /transfers/`). -/
structure TransferRequest where
  from_account_id : String
  to_account_id : String
  amount : Int
  description : Option String
  transaction_id : Option String
deriving Repr, DecidableEq

/-- Embeds the pydantic field validators of `TransferRequest`
(src/app/schemas/transaction.py lines 13-18): both account ids 1-50 chars,
`amount > 0` (`gt=0`), `description` at most 500 chars, `transaction_id`
at most 100 chars. -/
def TransferRequest.valid (r : TransferRequest) : Prop :=
  1 ≤ r.from_account_id.length ∧ r.from_account_id.length ≤ 50
    ∧ 1 ≤ r.to_account_id.length ∧ r.to_account_id.length ≤ 50
    ∧ 0 < r.amount

/-- Embeds the error outcomes of the account endpoints
(src/app/api/accounts.py), named by the spec's error taxonomy:
`alreadyExists` = HTTP 400 "already exists", `invalidInitialBalance` =
HTTP 400 "Initial balance cannot be negative", `notFound` = HTTP 404,
`preconditionFailed` = HTTP 400 "Cannot delete account with non-zero
balance". -/
inductive AccountError
  | alreadyExists (account_id : String)
  | invalidInitialBalance
  | notFound (account_id : String)
  | preconditionFailed
deriving Repr, DecidableEq

/-- Embeds the error outcomes of `create_transfer`
(src/app/api/transfers.py): `sameAccount` = HTTP 400 "Cannot transfer to
the same account", `alreadyExists` = HTTP 400 "Transaction ... already
exists", `notFound` = HTTP 404 "Account ... not found",
`insufficientFunds` = HTTP 400 "Insufficient funds. Balance: ...,
Required: ..." (carrying the actual balance and attempted amount),
`internal` = HTTP 500 "Transfer failed: ...". -/
inductive TransferError
  | sameAccount
  | alreadyExists (transaction_id : String)
  | notFound (account_id : String)
  | insufficientFunds (balance : Int) (amount : Int)
  | internal (message : String)
deriving Repr, DecidableEq

/-- Embeds `create_account` (src/app/api/accounts.py lines 19-59): reject a
taken `account_id`, reject a negative initial balance, otherwise insert the
new row and commit. Returns the committed store plus the outcome. -/
def create_account (st : LedgerState) (account_data : AccountCreate) :
    LedgerState × Except AccountError Account :=
  match findAccount st account_data.account_id with
  | some _ => (st, .error (.alreadyExists account_data.account_id))
  | none =>
    if account_data.initial_balance < 0 then
      (st, .error .invalidInitialBalance)
    else
      let new_account : Account :=
        { account_id := account_data.account_id
          owner_name := account_data.owner_name
          balance := account_data.initial_balance }
      ({ st with accounts := st.accounts ++ [new_account] }, .ok new_account)

/-- Embeds `get_account` (src/app/api/accounts.py lines 62-78). -/
def get_account (st : LedgerState) (account_id : String) :
    Except AccountError Account :=
  match findAccount st account_id with
  | none => .error (.notFound account_id)
  | some account => .ok account

/-- Embeds `delete_account` (src/app/api/accounts.py lines 119-145): 404 if
absent, 400 if the balance is non-zero, otherwise delete the row
(`db.delete` removes the fetched row, i.e. the first match) and commit. -/
def delete_account (st : LedgerState) (account_id : String) :
    LedgerState × Except AccountError Unit :=
  match findAccount st account_id with
  | none => (st, .error (.notFound account_id))
  | some account =>
    if account.balance ≠ 0 then
      (st, .error .preconditionFailed)
    else
      ({ st with accounts := st.accounts.eraseP (fun a => a.account_id == account_id) },
       .ok ())

/-- Embeds `transaction_id = transfer_data.transaction_id or str(uuid.uuid4())`
(src/app/api/transfers.py line 49): Python's `or` falls through to the fresh
UUID when the field is absent or the empty string. The generated UUID is the
`freshId` parameter (UUID generation itself is nondeterministic I/O). -/
def resolveTransactionId (requested : Option String) (freshId : String) : String :=
  match requested with
  | none => freshId
  | some s => if s.isEmpty then freshId else s

/-- Embeds `sorted([transfer_data.from_account_id, transfer_data.to_account_id])`
(src/app/api/transfers.py line 65): the two account ids in code-point
lexicographic order, independent of which is source and which destination.
This is the row-lock acquisition order. -/
def lockOrderIds (from_id to_id : String) : List String :=
  if strLt to_id from_id then [to_id, from_id] else [from_id, to_id]

/-- Embeds the balance mutation of the success path
(src/app/api/transfers.py lines 115-116):
`from_account.balance -= amount; to_account.balance += amount`, expressed
relationally over the accounts table (the two fetched rows are the rows
whose `account_id` matches). -/
def debitCredit (from_id to_id : String) (amount : Int) (a : Account) : Account :=
  if a.account_id = from_id then { a with balance := a.balance - amount }
  else if a.account_id = to_id then { a with balance := a.balance + amount }
  else a

/-- Embeds `create_transfer` (src/app/api/transfers.py lines 20-130), the
Transfer Engine. In source order: reject `from == to`; resolve the
transaction id; idempotency gate (reject if a record with that id exists);
lock both account rows in `lockOrderIds` order, failing 404 on the first id
in lock order whose row is absent; funds check `from_account.balance <
amount` → durably commit a `failed` record and report insufficient funds
with the actual balance and attempted amount; otherwise build a `pending`
record, debit source, credit destination, mark the record `completed`, and
commit everything atomically. The returned `LedgerState` is the durable
store after the call. -/
def create_transfer (st : LedgerState) (transfer_data : TransferRequest)
    (freshId : String) : LedgerState × Except TransferError Transaction :=
  if transfer_data.from_account_id = transfer_data.to_account_id then
    (st, .error .sameAccount)
  else
    let transaction_id := resolveTransactionId transfer_data.transaction_id freshId
    match findTransaction st transaction_id with
    | some _ => (st, .error (.alreadyExists transaction_id))
    | none =>
      let account_ids := lockOrderIds transfer_data.from_account_id transfer_data.to_account_id
      match findAccount st transfer_data.from_account_id,
            findAccount st transfer_data.to_account_id with
      | some from_account, some to_account =>
        if from_account.balance < transfer_data.amount then
          let failed_transaction : Transaction :=
            { transaction_id := transaction_id
              from_account_id := transfer_data.from_account_id
              to_account_id := transfer_data.to_account_id
              amount := transfer_data.amount
              status := .failed
              description := transfer_data.description }
          ({ st with transactions := st.transactions ++ [failed_transaction] },
           .error (.insufficientFunds from_account.balance transfer_data.amount))
        else
          let transaction : Transaction :=
            { transaction_id := transaction_id
              from_account_id := transfer_data.from_account_id
              to_account_id := transfer_data.to_account_id
              amount := transfer_data.amount
              status := .pending
              description := transfer_data.description }
          let accounts :=
            st.accounts.map
              (debitCredit transfer_data.from_account_id transfer_data.to_account_id
                transfer_data.amount)
          let transaction := { transaction with status := TransactionStatus.completed }
          ({ accounts := accounts, transactions := st.transactions ++ [transaction] },
           .ok transaction)
      | _, _ =>
        (st, .error (.notFound
          ((account_ids.find? (fun id => (findAccount st id).isNone)).getD "")))

/-- Embeds the `except Exception` handler of `create_transfer`
(src/app/api/transfers.py lines 137-154), entered when the surrounding
unit of work fails at commit time — in particular when the Ledger Store's
uniqueness constraint on `transaction_id` rejects the commit because a
concurrent duplicate committed first. The handler rolls back (`durable` is
the store after rollback, i.e. the winner's committed state), then makes a
best-effort attempt to insert a `failed` record under the same
`transaction_id`; if that insert itself violates the uniqueness constraint
the bare `except: pass` swallows the secondary failure. Either way the
handler raises HTTP 500 `Transfer failed: ...`. -/
def transfer_commit_error_handler (durable : LedgerState)
    (transfer_data : TransferRequest) (transaction_id : String)
    (error_message : String) : LedgerState × Except TransferError Transaction :=
  let failed_transaction : Transaction :=
    { transaction_id := transaction_id
      from_account_id := transfer_data.from_account_id
      to_account_id := transfer_data.to_account_id
      amount := transfer_data.amount
      status := .failed
      description := transfer_data.description }
  let st' :=
    if (findTransaction durable transaction_id).isSome then
      durable
    else
      { durable with transactions := durable.transactions ++ [failed_transaction] }
  (st', .error (.internal ("Transfer failed: " ++ error_message)))

/-- Sum of all account balances in the store, in cents. -/
def totalBalance (st : LedgerState) : Int :=
  (st.accounts.map (fun a => a.balance)).sum

/-- States whose accounts table respects the store's uniqueness constraint
on `account_id` (enforced by `unique=True` on the column and by
`create_account`'s duplicate check). -/
def nodupIds (st : LedgerState) : Prop :=
  (st.accounts.map (fun a => a.account_id)).Nodup

/-- States in which every account balance is non-negative. -/
def allNonneg (st : LedgerState) : Prop :=
  ∀ a ∈ st.accounts, 0 ≤ a.balance

/-- Events issued against the Ledger Store by the locking and funds-check
section of `create_transfer` (src/app/api/transfers.py lines 65-86):
`lockForUpdate id` is the `SELECT ... FOR UPDATE` a loop iteration issues
for `id`; `readBalance id` is the read of `id`'s balance that decides the
funds check. -/
inductive StoreEvent
  | lockForUpdate (account_id : String)
  | readBalance (account_id : String)
deriving Repr, DecidableEq

/-- Recognises lock-acquisition events. -/
def StoreEvent.isLock : StoreEvent → Bool
  | .lockForUpdate _ => true
  | .readBalance _ => false

/-- Embeds the store-event trace of src/app/api/transfers.py lines 65-86:
the lock loop iterates over `lockOrderIds` issuing one `SELECT ... FOR
UPDATE` per id, and only after the loop does the funds check read the
source balance. -/
def transferLockTrace (from_id to_id : String) : List StoreEvent :=
  (lockOrderIds from_id to_id).map StoreEvent.lockForUpdate
    ++ [StoreEvent.readBalance from_id]

/-! Helper lemmas about the embedded operations. -/

lemma debitCredit_account_id (from_id to_id : String) (amount : Int) (a : Account) :
    (debitCredit from_id to_id amount a).account_id = a.account_id := by
  unfold debitCredit
  split
  · rfl
  · split <;> rfl

lemma debitCredit_of_from {from_id to_id : String} {amount : Int} {a : Account}
    (h : a.account_id = from_id) :
    debitCredit from_id to_id amount a = { a with balance := a.balance - amount } := by
  unfold debitCredit
  rw [if_pos h]

lemma debitCredit_of_to {from_id to_id : String} {amount : Int} {a : Account}
    (h : a.account_id = to_id) (hne : a.account_id ≠ from_id) :
    debitCredit from_id to_id amount a = { a with balance := a.balance + amount } := by
  unfold debitCredit
  rw [if_neg hne, if_pos h]

lemma debitCredit_of_other {from_id to_id : String} {amount : Int} {a : Account}
    (h1 : a.account_id ≠ from_id) (h2 : a.account_id ≠ to_id) :
    debitCredit from_id to_id amount a = a := by
  unfold debitCredit
  rw [if_neg h1, if_neg h2]

lemma findAccount_some_account_id {st : LedgerState} {id : String} {a : Account}
    (h : findAccount st id = some a) : a.account_id = id := by
  have := List.find?_some h
  simpa [beq_iff_eq] using this

lemma findAccount_some_mem {st : LedgerState} {id : String} {a : Account}
    (h : findAccount st id = some a) : a ∈ st.accounts :=
  List.mem_of_find?_eq_some h

lemma find?_map_debitCredit (l : List Account) (from_id to_id id : String) (amount : Int) :
    (l.map (debitCredit from_id to_id amount)).find? (fun a => a.account_id == id)
      = (l.find? (fun a => a.account_id == id)).map (debitCredit from_id to_id amount) := by
  rw [List.find?_map]
  have hp : ((fun a => a.account_id == id) ∘ debitCredit from_id to_id amount)
      = fun a => a.account_id == id := by
    funext a
    simp [Function.comp, debitCredit_account_id]
  rw [hp]

lemma create_transfer_success_eq
    {st : LedgerState} {req : TransferRequest} {freshId : String} {fa ta : Account}
    (hne : req.from_account_id ≠ req.to_account_id)
    (hdup : findTransaction st (resolveTransactionId req.transaction_id freshId) = none)
    (hf : findAccount st req.from_account_id = some fa)
    (ht : findAccount st req.to_account_id = some ta)
    (hbal : ¬ fa.balance < req.amount) :
    create_transfer st req freshId
      = ({ accounts :=
             st.accounts.map
               (debitCredit req.from_account_id req.to_account_id req.amount),
           transactions := st.transactions ++
             [{ transaction_id := resolveTransactionId req.transaction_id freshId
                from_account_id := req.from_account_id
                to_account_id := req.to_account_id
                amount := req.amount
                status := .completed
                description := req.description }] },
         .ok { transaction_id := resolveTransactionId req.transaction_id freshId
               from_account_id := req.from_account_id
               to_account_id := req.to_account_id
               amount := req.amount
               status := .completed
               description := req.description }) := by
  simp [create_transfer, hne, hdup, hf, ht, hbal]

lemma create_transfer_insufficient_eq
    {st : LedgerState} {req : TransferRequest} {freshId : String} {fa ta : Account}
    (hne : req.from_account_id ≠ req.to_account_id)
    (hdup : findTransaction st (resolveTransactionId req.transaction_id freshId) = none)
    (hf : findAccount st req.from_account_id = some fa)
    (ht : findAccount st req.to_account_id = some ta)
    (hbal : fa.balance < req.amount) :
    create_transfer st req freshId
      = ({ st with transactions := st.transactions ++
             [{ transaction_id := resolveTransactionId req.transaction_id freshId
                from_account_id := req.from_account_id
                to_account_id := req.to_account_id
                amount := req.amount
                status := .failed
                description := req.description }] },
         .error (.insufficientFunds fa.balance req.amount)) := by
  simp [create_transfer, hne, hdup, hf, ht, hbal]

lemma create_transfer_dup_eq
    {st : LedgerState} {req : TransferRequest} {freshId : String} {tx0 : Transaction}
    (hne : req.from_account_id ≠ req.to_account_id)
    (hdup : findTransaction st (resolveTransactionId req.transaction_id freshId) = some tx0) :
    create_transfer st req freshId
      = (st, .error (.alreadyExists (resolveTransactionId req.transaction_id freshId))) := by
  simp [create_transfer, hne, hdup]

lemma create_transfer_ok_inv
    {st st' : LedgerState} {req : TransferRequest} {freshId : String} {tx : Transaction}
    (h : create_transfer st req freshId = (st', .ok tx)) :
    req.from_account_id ≠ req.to_account_id
    ∧ findTransaction st (resolveTransactionId req.transaction_id freshId) = none
    ∧ ∃ fa ta : Account,
        findAccount st req.from_account_id = some fa
        ∧ findAccount st req.to_account_id = some ta
        ∧ ¬ fa.balance < req.amount
        ∧ st' = { accounts :=
                    st.accounts.map
                      (debitCredit req.from_account_id req.to_account_id req.amount),
                  transactions := st.transactions ++ [tx] }
        ∧ tx = { transaction_id := resolveTransactionId req.transaction_id freshId
                 from_account_id := req.from_account_id
                 to_account_id := req.to_account_id
                 amount := req.amount
                 status := .completed
                 description := req.description } := by
  by_cases hne : req.from_account_id = req.to_account_id
  · simp [create_transfer, hne] at h
  · cases hdup : findTransaction st (resolveTransactionId req.transaction_id freshId) with
    | some tx0 =>
      rw [create_transfer_dup_eq hne hdup] at h
      simp at h
    | none =>
      cases hf : findAccount st req.from_account_id with
      | none => simp [create_transfer, hne, hdup, hf] at h
      | some fa =>
        cases ht : findAccount st req.to_account_id with
        | none => simp [create_transfer, hne, hdup, hf, ht] at h
        | some ta =>
          by_cases hbal : fa.balance < req.amount
          · rw [create_transfer_insufficient_eq hne hdup hf ht hbal] at h
            simp at h
          · rw [create_transfer_success_eq hne hdup hf ht hbal] at h
            have hst := congrArg Prod.fst h
            have hok := congrArg Prod.snd h
            simp only at hst hok
            injection hok with htx
            exact ⟨hne, rfl, fa, ta, rfl, rfl, hbal, by rw [← hst, ← htx], htx.symm⟩

lemma countP_account_id_le_one {st : LedgerState} (hnd : nodupIds st) (id : String) :
    st.accounts.countP (fun a => a.account_id == id) ≤ 1 := by
  have h1 : (st.accounts.map (fun a => a.account_id)).count id ≤ 1 :=
    List.nodup_iff_count_le_one.mp hnd id
  rw [List.count_eq_countP, List.countP_map] at h1
  exact h1

lemma countP_account_id_eq_one {st : LedgerState} (hnd : nodupIds st) {a : Account}
    (ha : a ∈ st.accounts) :
    st.accounts.countP (fun x => x.account_id == a.account_id) = 1 := by
  have hle := countP_account_id_le_one hnd a.account_id
  have hpos : 0 < st.accounts.countP (fun x => x.account_id == a.account_id) :=
    List.countP_pos_iff.mpr ⟨a, ha, by simp⟩
  omega

lemma mem_account_id_inj (l : List Account)
    (hnd : (l.map (fun a => a.account_id)).Nodup)
    {a b : Account} (ha : a ∈ l) (hb : b ∈ l)
    (h : a.account_id = b.account_id) : a = b := by
  induction l with
  | nil => cases ha
  | cons c l ih =>
    simp only [List.map_cons, List.nodup_cons] at hnd
    obtain ⟨hc, hnd'⟩ := hnd
    rcases List.mem_cons.mp ha with rfl | ha' <;>
      rcases List.mem_cons.mp hb with rfl | hb'
    · rfl
    · exact absurd (h ▸ List.mem_map_of_mem (fun x => x.account_id) hb') hc
    · exact absurd (h ▸ List.mem_map_of_mem (fun x => x.account_id) ha') hc
    · exact ih hnd' ha' hb'

lemma sum_map_debitCredit (l : List Account) (from_id to_id : String) (amount : Int)
    (hft : from_id ≠ to_id) :
    ((l.map (debitCredit from_id to_id amount)).map (fun a => a.balance)).sum
      = (l.map (fun a => a.balance)).sum
        + amount * ((l.countP (fun a => a.account_id == to_id) : Int)
            - (l.countP (fun a => a.account_id == from_id) : Int)) := by
  induction l with
  | nil => simp
  | cons a l ih =>
    simp only [List.map_cons, List.sum_cons, List.countP_cons, ih]
    by_cases haf : a.account_id = from_id
    · have hat : a.account_id ≠ to_id := fun hc => hft (haf ▸ hc)
      rw [debitCredit_of_from haf]
      simp only [beq_iff_eq]
      simp [haf, hat, hft]
      push_cast
      ring
    · by_cases hat : a.account_id = to_id
      · rw [debitCredit_of_to hat haf]
        simp only [beq_iff_eq]
        simp [haf, hat, Ne.symm hft]
        push_cast
        ring
      · rw [debitCredit_of_other haf hat]
        simp only [beq_iff_eq]
        simp [haf, hat]
        ring

lemma find?_eraseP_eq_none {α : Type} (l : List α) (p : α → Bool)
    (h : l.countP p ≤ 1) : (l.eraseP p).find? p = none := by
  induction l with
  | nil => simp
  | cons a l ih =>
    by_cases ha : p a
    · rw [List.eraseP_cons_of_pos ha]
      rw [List.countP_cons, if_pos ha] at h
      have h0 : l.countP p = 0 := by omega
      exact List.find?_eq_none.mpr (List.countP_eq_zero.mp h0)
    · rw [List.eraseP_cons_of_neg (by simpa using ha)]
      rw [List.countP_cons, if_neg ha] at h
      rw [List.find?_cons_of_neg _ (by simpa using ha)]
      exact ih (by omega)

lemma lexLt_asymm (as bs : List Char) (h : lexLt as bs = true) : lexLt bs as = false := by
  induction as generalizing bs with
  | nil =>
    cases bs with
    | nil => simp [lexLt] at h
    | cons b bs => simp [lexLt]
  | cons a as ih =>
    cases bs with
    | nil => simp [lexLt] at h
    | cons b bs =>
      simp only [lexLt] at h ⊢
      by_cases hab : a < b
      · simp [hab, lt_asymm hab]
      · by_cases hba : b < a
        · simp [hab, hba] at h
        · simp only [hab, hba, if_false] at h
          simp only [hba, hab, if_false]
          exact ih bs h

lemma lexLt_conn (as bs : List Char) (h1 : lexLt as bs = false)
    (h2 : lexLt bs as = false) : as = bs := by
  induction as generalizing bs with
  | nil =>
    cases bs with
    | nil => rfl
    | cons b bs => simp [lexLt] at h1
  | cons a as ih =>
    cases bs with
    | nil => simp [lexLt] at h2
    | cons b bs =>
      simp only [lexLt] at h1 h2
      by_cases hab : a < b
      · simp [hab] at h1
      · by_cases hba : b < a
        · simp [hba] at h2
        · have hchar : a = b := le_antisymm (le_of_not_lt hba) (le_of_not_lt hab)
          simp only [hab, hba, if_false] at h1 h2
          rw [hchar, ih bs h1 h2]

lemma strLt_asymm (a b : String) (h : strLt a b = true) : strLt b a = false :=
  lexLt_asymm a.data b.data h

lemma strLt_conn (a b : String) (h1 : strLt a b = false) (h2 : strLt b a = false) :
    a = b := by
  have := lexLt_conn a.data b.data h1 h2
  cases a
  cases b
  simp_all

lemma findAccount_map_debitCredit (st : LedgerState) (txs : List Transaction)
    (from_id to_id id : String) (amount : Int) :
    findAccount { accounts := st.accounts.map (debitCredit from_id to_id amount),
                  transactions := txs } id
      = (findAccount st id).map (debitCredit from_id to_id amount) :=
  find?_map_debitCredit st.accounts from_id to_id id amount

/-! Claim theorems. -/

/-- C1: when the transfer preconditions hold (distinct accounts, positive
amount, both accounts present, no stored record under the resolved
transaction id) and the source balance is at least the amount — the exact
fixed-point comparison `balance >= amount`, so a transfer of exactly the
full balance qualifies — the transfer succeeds: the committed store debits
the source by exactly the amount, credits the destination by exactly the
amount, and appends one transaction record with status `completed`, all in
the single atomically committed result state. -/
theorem transfer_sufficient_funds_succeeds
    (st : LedgerState) (req : TransferRequest) (freshId : String) (fa ta : Account)
    (hne : req.from_account_id ≠ req.to_account_id)
    (hamt : 0 < req.amount)
    (hf : findAccount st req.from_account_id = some fa)
    (ht : findAccount st req.to_account_id = some ta)
    (hdup : findTransaction st (resolveTransactionId req.transaction_id freshId) = none)
    (hbal : req.amount ≤ fa.balance) :
    ∃ tx : Transaction,
      (create_transfer st req freshId).2 = .ok tx
      ∧ tx.status = .completed
      ∧ tx.transaction_id = resolveTransactionId req.transaction_id freshId
      ∧ tx.from_account_id = req.from_account_id
      ∧ tx.to_account_id = req.to_account_id
      ∧ tx.amount = req.amount
      ∧ (create_transfer st req freshId).1.transactions = st.transactions ++ [tx]
      ∧ findAccount (create_transfer st req freshId).1 req.from_account_id
          = some { fa with balance := fa.balance - req.amount }
      ∧ findAccount (create_transfer st req freshId).1 req.to_account_id
          = some { ta with balance := ta.balance + req.amount } := by
  have hbal' : ¬ fa.balance < req.amount := not_lt.mpr hbal
  have heq := create_transfer_success_eq hne hdup hf ht hbal'
  rw [heq]
  refine ⟨_, rfl, rfl, rfl, rfl, rfl, rfl, rfl, ?_, ?_⟩
  · rw [findAccount_map_debitCredit, hf]
    simp [debitCredit_of_from (findAccount_some_account_id hf)]
  · rw [findAccount_map_debitCredit, ht]
    have h1 : ta.account_id = req.to_account_id := findAccount_some_account_id ht
    have h2 : ta.account_id ≠ req.from_account_id := by
      rw [h1]
      exact fun hc => hne hc.symm
    simp [debitCredit_of_to h1 h2]

/-- C1 witness: transferring the entire balance of A (100.00) to B succeeds
and leaves A at exactly 0. -/
theorem transfer_sufficient_funds_succeeds_witness :
    findAccount
      (create_transfer
        { accounts := [⟨"A", "alice", 10000⟩, ⟨"B", "bob", 0⟩], transactions := [] }
        { from_account_id := "A", to_account_id := "B", amount := 10000,
          description := none, transaction_id := some "tx1" } "uuid-1").1 "A"
      = some ⟨"A", "alice", 0⟩ := by
  obtain ⟨tx, -, -, -, -, -, -, -, h8, -⟩ :=
    transfer_sufficient_funds_succeeds
      { accounts := [⟨"A", "alice", 10000⟩, ⟨"B", "bob", 0⟩], transactions := [] }
      { from_account_id := "A", to_account_id := "B", amount := 10000,
        description := none, transaction_id := some "tx1" } "uuid-1"
      ⟨"A", "alice", 10000⟩ ⟨"B", "bob", 0⟩
      (by decide) (by decide) rfl rfl rfl (by decide)
  exact h8

/-- C2: when the preconditions and the idempotency gate pass but the source
balance is strictly below the amount, the operation commits a `failed`
record for audit, leaves every account balance unchanged, and reports
insufficient funds carrying the actual source balance and the attempted
amount. -/
theorem transfer_insufficient_funds_records_failure
    (st : LedgerState) (req : TransferRequest) (freshId : String) (fa ta : Account)
    (hne : req.from_account_id ≠ req.to_account_id)
    (hf : findAccount st req.from_account_id = some fa)
    (ht : findAccount st req.to_account_id = some ta)
    (hdup : findTransaction st (resolveTransactionId req.transaction_id freshId) = none)
    (hbal : fa.balance < req.amount) :
    create_transfer st req freshId
      = ({ st with transactions := st.transactions ++
            [{ transaction_id := resolveTransactionId req.transaction_id freshId
               from_account_id := req.from_account_id
               to_account_id := req.to_account_id
               amount := req.amount
               status := .failed
               description := req.description }] },
         .error (.insufficientFunds fa.balance req.amount))
    ∧ (create_transfer st req freshId).1.accounts = st.accounts := by
  have heq := create_transfer_insufficient_eq hne hdup hf ht hbal
  exact ⟨heq, by rw [heq]⟩

/-- C2 witness: the spec scenario A(100.00), B(0), transfer 100.01: rejected
with the actual balance and attempted amount, A unchanged, a `failed` record
committed. -/
theorem transfer_insufficient_funds_records_failure_witness :
    (create_transfer
      { accounts := [⟨"A", "alice", 10000⟩, ⟨"B", "bob", 0⟩], transactions := [] }
      { from_account_id := "A", to_account_id := "B", amount := 10001,
        description := none, transaction_id := some "tx1" } "uuid-1").2
      = .error (.insufficientFunds 10000 10001)
    ∧ (create_transfer
      { accounts := [⟨"A", "alice", 10000⟩, ⟨"B", "bob", 0⟩], transactions := [] }
      { from_account_id := "A", to_account_id := "B", amount := 10001,
        description := none, transaction_id := some "tx1" } "uuid-1").1.accounts
      = [⟨"A", "alice", 10000⟩, ⟨"B", "bob", 0⟩] := by
  have h :=
    transfer_insufficient_funds_records_failure
      { accounts := [⟨"A", "alice", 10000⟩, ⟨"B", "bob", 0⟩], transactions := [] }
      { from_account_id := "A", to_account_id := "B", amount := 10001,
        description := none, transaction_id := some "tx1" } "uuid-1"
      ⟨"A", "alice", 10000⟩ ⟨"B", "bob", 0⟩
      (by decide) rfl rfl rfl (by decide)
  exact ⟨by rw [h.1], h.2⟩

/-- C3: the idempotency gate: if the resolved transaction id already
identifies a stored record, the call fails with `AlreadyExists` and the
store is returned unchanged (no balance change, no new record, the original
record untouched) — the gate never inspects the stored record's status.
Consequently issuing the same transaction id twice, the second call after a
successful first one, yields `AlreadyExists` and changes nothing. -/
theorem transfer_duplicate_transaction_id_rejected
    (st : LedgerState) (req : TransferRequest) (freshId : String) (tx0 : Transaction)
    (hne : req.from_account_id ≠ req.to_account_id)
    (hdup : findTransaction st (resolveTransactionId req.transaction_id freshId) = some tx0) :
    create_transfer st req freshId
      = (st, .error (.alreadyExists (resolveTransactionId req.transaction_id freshId)))
    ∧ ∀ (st₀ st₁ : LedgerState) (req₀ : TransferRequest) (fid : String) (tx₁ : Transaction),
        create_transfer st₀ req₀ fid = (st₁, .ok tx₁) →
        create_transfer st₁ req₀ fid
          = (st₁, .error (.alreadyExists (resolveTransactionId req₀.transaction_id fid))) := by
  constructor
  · exact create_transfer_dup_eq hne hdup
  · intro st₀ st₁ req₀ fid tx₁ h
    obtain ⟨hne₀, hdup₀, fa, ta, hf, ht, hbal, hst, htx⟩ := create_transfer_ok_inv h
    have hfind : findTransaction st₁ (resolveTransactionId req₀.transaction_id fid)
        = some tx₁ := by
      subst hst
      unfold findTransaction at hdup₀ ⊢
      rw [List.find?_append, hdup₀]
      simp [htx]
    exact create_transfer_dup_eq hne₀ hfind

/-- C3 witness: a transfer whose transaction id matches a stored record is
rejected with `AlreadyExists` and the store is unchanged. -/
theorem transfer_duplicate_transaction_id_rejected_witness :
    create_transfer
      { accounts := [⟨"A", "alice", 10000⟩, ⟨"B", "bob", 0⟩],
        transactions := [⟨"tx1", "A", "B", 100, .failed, none⟩] }
      { from_account_id := "A", to_account_id := "B", amount := 100,
        description := none, transaction_id := some "tx1" } "uuid-9"
      = ({ accounts := [⟨"A", "alice", 10000⟩, ⟨"B", "bob", 0⟩],
           transactions := [⟨"tx1", "A", "B", 100, .failed, none⟩] },
         .error (.alreadyExists "tx1")) :=
  (transfer_duplicate_transaction_id_rejected
    { accounts := [⟨"A", "alice", 10000⟩, ⟨"B", "bob", 0⟩],
      transactions := [⟨"tx1", "A", "B", 100, .failed, none⟩] }
    { from_account_id := "A", to_account_id := "B", amount := 100,
      description := none, transaction_id := some "tx1" } "uuid-9"
    ⟨"tx1", "A", "B", 100, .failed, none⟩
    (by decide) rfl).1

/-- C4: conservation of money. Every completed transfer changes exactly the
two involved balances by equal and opposite amounts — source down by the
amount, destination up by the amount, every other account untouched — so
the sum of all balances is invariant; invariance over any sequence of
successful transfers follows by induction on this single-step fact. The
`nodupIds` hypothesis is the store's uniqueness constraint on
`account_id`. -/
theorem conservation_of_money
    (st st' : LedgerState) (req : TransferRequest) (freshId : String) (tx : Transaction)
    (hnd : nodupIds st)
    (h : create_transfer st req freshId = (st', .ok tx)) :
    totalBalance st' = totalBalance st
    ∧ (∀ id : String, id ≠ req.from_account_id → id ≠ req.to_account_id →
        findAccount st' id = findAccount st id)
    ∧ (∀ fa : Account, findAccount st req.from_account_id = some fa →
        findAccount st' req.from_account_id
          = some { fa with balance := fa.balance - req.amount })
    ∧ (∀ ta : Account, findAccount st req.to_account_id = some ta →
        findAccount st' req.to_account_id
          = some { ta with balance := ta.balance + req.amount }) := by
  obtain ⟨hne, hdup, fa, ta, hf, ht, hbal, hst, htx⟩ := create_transfer_ok_inv h
  subst hst
  refine ⟨?_, ?_, ?_, ?_⟩
  · show ((st.accounts.map
        (debitCredit req.from_account_id req.to_account_id req.amount)).map
          (fun a => a.balance)).sum
      = (st.accounts.map (fun a => a.balance)).sum
    rw [sum_map_debitCredit st.accounts _ _ _ hne]
    have h1 : st.accounts.countP (fun a => a.account_id == req.to_account_id) = 1 := by
      have := countP_account_id_eq_one hnd (findAccount_some_mem ht)
      rwa [findAccount_some_account_id ht] at this
    have h2 : st.accounts.countP (fun a => a.account_id == req.from_account_id) = 1 := by
      have := countP_account_id_eq_one hnd (findAccount_some_mem hf)
      rwa [findAccount_some_account_id hf] at this
    rw [h1, h2]
    simp
  · intro id hif hit
    rw [findAccount_map_debitCredit]
    cases hfind : findAccount st id with
    | none => rfl
    | some b =>
      have hbid : b.account_id = id := findAccount_some_account_id hfind
      simp only [Option.map_some']
      rw [debitCredit_of_other (by rw [hbid]; exact hif) (by rw [hbid]; exact hit)]
  · intro fa' hfa'
    rw [findAccount_map_debitCredit, hfa']
    simp [debitCredit_of_from (findAccount_some_account_id hfa')]
  · intro ta' hta'
    rw [findAccount_map_debitCredit, hta']
    have h1 : ta'.account_id = req.to_account_id := findAccount_some_account_id hta'
    have h2 : ta'.account_id ≠ req.from_account_id := by
      rw [h1]
      exact fun hc => hne hc.symm
    simp [debitCredit_of_to h1 h2]

/-- C4 witness: a concrete completed transfer preserves the sum of all
balances and leaves the uninvolved account C untouched. -/
theorem conservation_of_money_witness :
    totalBalance
        { accounts := [⟨"A", "alice", 7500⟩, ⟨"B", "bob", 7500⟩, ⟨"C", "carol", 7⟩],
          transactions := [⟨"tx1", "A", "B", 2500, .completed, none⟩] }
      = totalBalance
        { accounts := [⟨"A", "alice", 10000⟩, ⟨"B", "bob", 5000⟩, ⟨"C", "carol", 7⟩],
          transactions := [] }
    ∧ findAccount
        ({ accounts := [⟨"A", "alice", 7500⟩, ⟨"B", "bob", 7500⟩, ⟨"C", "carol", 7⟩],
           transactions := [⟨"tx1", "A", "B", 2500, .completed, none⟩] } : LedgerState) "C"
      = findAccount
        ({ accounts := [⟨"A", "alice", 10000⟩, ⟨"B", "bob", 5000⟩, ⟨"C", "carol", 7⟩],
           transactions := [] } : LedgerState) "C" := by
  have h :=
    conservation_of_money
      { accounts := [⟨"A", "alice", 10000⟩, ⟨"B", "bob", 5000⟩, ⟨"C", "carol", 7⟩],
        transactions := [] }
      { accounts := [⟨"A", "alice", 7500⟩, ⟨"B", "bob", 7500⟩, ⟨"C", "carol", 7⟩],
        transactions := [⟨"tx1", "A", "B", 2500, .completed, none⟩] }
      { from_account_id := "A", to_account_id := "B", amount := 2500,
        description := none, transaction_id := some "tx1" } "uuid-1"
      ⟨"tx1", "A", "B", 2500, .completed, none⟩
      (by unfold nodupIds; decide) rfl
  exact ⟨h.1, h.2.1 "C" (by decide) (by decide)⟩

/-- C5: non-negativity. Starting from a store whose balances are all
non-negative (and whose account ids are unique, the store's constraint),
every operation preserves non-negativity: `create_account` rejects a
negative initial balance, `create_transfer` (for the schema-guaranteed
positive amount) debits the source only after the funds check and only
credits the destination, and `delete_account` only removes a row. -/
theorem balances_never_negative
    (st : LedgerState) (hnd : nodupIds st) (hnn : allNonneg st) :
    (∀ r : AccountCreate, allNonneg (create_account st r).1)
    ∧ (∀ (req : TransferRequest) (freshId : String), 0 < req.amount →
        allNonneg (create_transfer st req freshId).1)
    ∧ (∀ id : String, allNonneg (delete_account st id).1) := by
  refine ⟨?_, ?_, ?_⟩
  · intro r
    unfold create_account
    split
    · exact hnn
    · split
      · exact hnn
      · next hneg =>
        intro a ha
        rcases List.mem_append.mp ha with h1 | h2
        · exact hnn a h1
        · rw [List.mem_singleton] at h2
          subst h2
          exact not_lt.mp hneg
  · intro req freshId hamt
    by_cases hne : req.from_account_id = req.to_account_id
    · simpa [create_transfer, hne] using hnn
    · cases hdup : findTransaction st (resolveTransactionId req.transaction_id freshId) with
      | some tx0 =>
        rw [create_transfer_dup_eq hne hdup]
        exact hnn
      | none =>
        cases hf : findAccount st req.from_account_id with
        | none => simpa [create_transfer, hne, hdup, hf] using hnn
        | some fa =>
          cases ht : findAccount st req.to_account_id with
          | none => simpa [create_transfer, hne, hdup, hf, ht] using hnn
          | some ta =>
            by_cases hbal : fa.balance < req.amount
            · rw [create_transfer_insufficient_eq hne hdup hf ht hbal]
              exact hnn
            · rw [create_transfer_success_eq hne hdup hf ht hbal]
              intro a ha
              obtain ⟨b, hb, rfl⟩ := List.mem_map.mp ha
              by_cases hbf : b.account_id = req.from_account_id
              · have hbfa : b = fa :=
                  mem_account_id_inj st.accounts hnd hb (findAccount_some_mem hf)
                    (by rw [hbf, findAccount_some_account_id hf])
                rw [debitCredit_of_from hbf]
                show 0 ≤ b.balance - req.amount
                rw [hbfa]
                omega
              · by_cases hbt : b.account_id = req.to_account_id
                · rw [debitCredit_of_to hbt hbf]
                  show 0 ≤ b.balance + req.amount
                  have := hnn b hb
                  omega
                · rw [debitCredit_of_other hbf hbt]
                  exact hnn b hb
  · intro id
    unfold delete_account
    split
    · exact hnn
    · split
      · exact hnn
      · intro a ha
        exact hnn a ((List.eraseP_sublist st.accounts).subset ha)

/-- C5 witness: a transfer of A's whole balance out of a non-negative store
leaves every balance non-negative. -/
theorem balances_never_negative_witness :
    allNonneg
      (create_transfer
        { accounts := [⟨"A", "alice", 5⟩, ⟨"B", "bob", 0⟩], transactions := [] }
        { from_account_id := "A", to_account_id := "B", amount := 5,
          description := none, transaction_id := some "tx1" } "uuid-1").1 :=
  (balances_never_negative
    { accounts := [⟨"A", "alice", 5⟩, ⟨"B", "bob", 0⟩], transactions := [] }
    (by unfold nodupIds; decide)
    (by unfold allNonneg; decide)).2.1
    { from_account_id := "A", to_account_id := "B", amount := 5,
      description := none, transaction_id := some "tx1" } "uuid-1"
    (by decide)

/-- C6: deterministic lock ordering. The lock-acquisition sequence is the
same whichever account is source and whichever destination, it is the two
ids sorted by the fixed code-point lexicographic total order, and in the
store-event trace of the locking section both row locks are acquired before
any balance is read for the funds check. -/
theorem lock_order_fixed_and_before_reads (a b : String) :
    lockOrderIds a b = lockOrderIds b a
    ∧ (∃ x y : String, lockOrderIds a b = [x, y] ∧ strLt y x = false
        ∧ ((x, y) = (a, b) ∨ (x, y) = (b, a)))
    ∧ (∃ locks reads : List StoreEvent,
        transferLockTrace a b = locks ++ reads
        ∧ (∀ e ∈ locks, e.isLock = true)
        ∧ (∀ e ∈ reads, e.isLock = false)
        ∧ StoreEvent.lockForUpdate a ∈ locks
        ∧ StoreEvent.lockForUpdate b ∈ locks) := by
  refine ⟨?_, ?_, ?_⟩
  · unfold lockOrderIds
    cases hba : strLt b a with
    | true =>
      rw [if_pos rfl, if_neg (by rw [strLt_asymm b a hba]; simp)]
    | false =>
      rw [if_neg (by simp)]
      cases hab : strLt a b with
      | true => rw [if_pos rfl]
      | false => rw [if_neg (by simp), strLt_conn a b hab hba]
  · unfold lockOrderIds
    cases hba : strLt b a with
    | true =>
      exact ⟨b, a, by rw [if_pos rfl], strLt_asymm b a hba, Or.inr rfl⟩
    | false =>
      exact ⟨a, b, by rw [if_neg (by simp)], hba, Or.inl rfl⟩
  · refine ⟨(lockOrderIds a b).map StoreEvent.lockForUpdate,
      [StoreEvent.readBalance a], rfl, ?_, ?_, ?_, ?_⟩
    · intro e he
      obtain ⟨id, -, rfl⟩ := List.mem_map.mp he
      rfl
    · intro e he
      rw [List.mem_singleton] at he
      subst he
      rfl
    · refine List.mem_map_of_mem _ ?_
      unfold lockOrderIds
      split <;> simp
    · refine List.mem_map_of_mem _ ?_
      unfold lockOrderIds
      split <;> simp

/-- C7: the code contradicts this claim. When the commit of a transfer is
rejected by the store's uniqueness constraint on `transaction_id` (a
concurrent duplicate committed first — here the winner's `completed` record
is already durable), the generic exception handler rolls back, fails again
on its best-effort `failed` record (swallowed by the bare `except`), and
reports an internal error (HTTP 500), not `AlreadyExists`: the losing call
is treated as an internal failure, contrary to the spec. -/
theorem commit_conflict_reported_as_internal :
    transfer_commit_error_handler
      { accounts := [⟨"A", "alice", 7500⟩, ⟨"B", "bob", 7500⟩],
        transactions := [⟨"tx1", "A", "B", 2500, .completed, none⟩] }
      { from_account_id := "A", to_account_id := "B", amount := 2500,
        description := none, transaction_id := some "tx1" } "tx1"
      "UNIQUE constraint failed: transactions.transaction_id"
      = ({ accounts := [⟨"A", "alice", 7500⟩, ⟨"B", "bob", 7500⟩],
           transactions := [⟨"tx1", "A", "B", 2500, .completed, none⟩] },
         .error (.internal
           "Transfer failed: UNIQUE constraint failed: transactions.transaction_id"))
    ∧ ∀ id : String,
        (transfer_commit_error_handler
          { accounts := [⟨"A", "alice", 7500⟩, ⟨"B", "bob", 7500⟩],
            transactions := [⟨"tx1", "A", "B", 2500, .completed, none⟩] }
          { from_account_id := "A", to_account_id := "B", amount := 2500,
            description := none, transaction_id := some "tx1" } "tx1"
          "UNIQUE constraint failed: transactions.transaction_id").2
          ≠ .error (.alreadyExists id) := by
  refine ⟨rfl, ?_⟩
  intro id h
  injection h with h'
  exact TransferError.noConfusion h'

/-- C8: terminal statuses only. Any records `create_transfer` commits are
appended to the existing ones (so a committed record is never updated
afterwards) and every appended record is `completed` or `failed` — a
`pending` record is never persisted; the account operations never touch the
transactions relation at all. -/
theorem committed_records_terminal
    (st : LedgerState) (req : TransferRequest) (freshId : String)
    (r : AccountCreate) (id : String) :
    (∃ written : List Transaction,
        (create_transfer st req freshId).1.transactions = st.transactions ++ written
        ∧ ∀ tx ∈ written, tx.status = .completed ∨ tx.status = .failed)
    ∧ (create_account st r).1.transactions = st.transactions
    ∧ (delete_account st id).1.transactions = st.transactions := by
  refine ⟨?_, ?_, ?_⟩
  · by_cases hne : req.from_account_id = req.to_account_id
    · exact ⟨[], by simp [create_transfer, hne], by simp⟩
    · cases hdup : findTransaction st (resolveTransactionId req.transaction_id freshId) with
      | some tx0 =>
        exact ⟨[], by rw [create_transfer_dup_eq hne hdup]; simp, by simp⟩
      | none =>
        cases hf : findAccount st req.from_account_id with
        | none => exact ⟨[], by simp [create_transfer, hne, hdup, hf], by simp⟩
        | some fa =>
          cases ht : findAccount st req.to_account_id with
          | none => exact ⟨[], by simp [create_transfer, hne, hdup, hf, ht], by simp⟩
          | some ta =>
            by_cases hbal : fa.balance < req.amount
            · refine ⟨[{ transaction_id := resolveTransactionId req.transaction_id freshId
                         from_account_id := req.from_account_id
                         to_account_id := req.to_account_id
                         amount := req.amount
                         status := .failed
                         description := req.description }], ?_, ?_⟩
              · rw [create_transfer_insufficient_eq hne hdup hf ht hbal]
              · intro tx htx
                rw [List.mem_singleton] at htx
                subst htx
                exact Or.inr rfl
            · refine ⟨[{ transaction_id := resolveTransactionId req.transaction_id freshId
                         from_account_id := req.from_account_id
                         to_account_id := req.to_account_id
                         amount := req.amount
                         status := .completed
                         description := req.description }], ?_, ?_⟩
              · rw [create_transfer_success_eq hne hdup hf ht hbal]
              · intro tx htx
                rw [List.mem_singleton] at htx
                subst htx
                exact Or.inl rfl
  · unfold create_account
    split
    · rfl
    · split <;> rfl
  · unfold delete_account
    split
    · rfl
    · split <;> rfl

/-- C9: the `deleteAccount` contract: `NotFound` when the account is absent
and `PreconditionFailed` when its balance is non-zero, the store unchanged
in both cases; deleting an account whose balance is exactly 0 succeeds and
a subsequent lookup of the id reports `NotFound`. -/
theorem delete_account_contract (st : LedgerState) (id : String) :
    (findAccount st id = none → delete_account st id = (st, .error (.notFound id)))
    ∧ (∀ a : Account, findAccount st id = some a → a.balance ≠ 0 →
        delete_account st id = (st, .error .preconditionFailed))
    ∧ (∀ a : Account, findAccount st id = some a → a.balance = 0 → nodupIds st →
        (delete_account st id).2 = .ok ()
        ∧ get_account (delete_account st id).1 id = .error (.notFound id)) := by
  refine ⟨?_, ?_, ?_⟩
  · intro h
    simp [delete_account, h]
  · intro a ha hb
    simp [delete_account, ha, hb]
  · intro a ha hb hnd
    have h2 : delete_account st id
        = ({ st with accounts := st.accounts.eraseP (fun x => x.account_id == id) },
           .ok ()) := by
      simp [delete_account, ha, hb]
    rw [h2]
    refine ⟨rfl, ?_⟩
    have hnone : findAccount
        { st with accounts := st.accounts.eraseP (fun x => x.account_id == id) } id
        = none :=
      find?_eraseP_eq_none st.accounts (fun x => x.account_id == id)
        (countP_account_id_le_one hnd id)
    simp [get_account, hnone]

/-- C9 witness: deleting absent C is `NotFound`, deleting B (balance
1000.00) is `PreconditionFailed` with the store unchanged, and deleting A
(balance 0) succeeds after which looking A up is `NotFound`. -/
theorem delete_account_contract_witness :
    delete_account
        { accounts := [⟨"A", "alice", 0⟩, ⟨"B", "bob", 100000⟩], transactions := [] } "C"
      = ({ accounts := [⟨"A", "alice", 0⟩, ⟨"B", "bob", 100000⟩], transactions := [] },
         .error (.notFound "C"))
    ∧ delete_account
        { accounts := [⟨"A", "alice", 0⟩, ⟨"B", "bob", 100000⟩], transactions := [] } "B"
      = ({ accounts := [⟨"A", "alice", 0⟩, ⟨"B", "bob", 100000⟩], transactions := [] },
         .error .preconditionFailed)
    ∧ (delete_account
        { accounts := [⟨"A", "alice", 0⟩, ⟨"B", "bob", 100000⟩], transactions := [] } "A").2
      = .ok ()
    ∧ get_account
        (delete_account
          { accounts := [⟨"A", "alice", 0⟩, ⟨"B", "bob", 100000⟩],
            transactions := [] } "A").1 "A"
      = .error (.notFound "A") := by
  have h3 :=
    (delete_account_contract
      { accounts := [⟨"A", "alice", 0⟩, ⟨"B", "bob", 100000⟩], transactions := [] } "A").2.2
      ⟨"A", "alice", 0⟩ rfl rfl (by unfold nodupIds; decide)
  exact ⟨(delete_account_contract
      { accounts := [⟨"A", "alice", 0⟩, ⟨"B", "bob", 100000⟩], transactions := [] } "C").1
      rfl,
    (delete_account_contract
      { accounts := [⟨"A", "alice", 0⟩, ⟨"B", "bob", 100000⟩], transactions := [] } "B").2.1
      ⟨"B", "bob", 100000⟩ rfl (by decide),
    h3.1, h3.2⟩

/-- C10: the negative-initial-balance branch of `create_account` is
unreachable through the public interface: for every schema-valid request
(`initial_balance >= 0` is enforced by the pydantic field, which also
defaults it to 0) the handler never reports `invalidInitialBalance`, and
every account it creates starts with a non-negative balance. -/
theorem negative_initial_balance_branch_unreachable
    (st : LedgerState) (r : AccountCreate) (hv : r.valid) :
    (create_account st r).2 ≠ .error .invalidInitialBalance
    ∧ (∀ a : Account, (create_account st r).2 = .ok a → 0 ≤ a.balance) := by
  have hnn : ¬ r.initial_balance < 0 := not_lt.mpr hv.2.2.2.2
  constructor
  · unfold create_account
    split
    · simp
    · rw [if_neg hnn]
      simp
  · intro a ha
    unfold create_account at ha
    split at ha
    · simp at ha
    · rw [if_neg hnn] at ha
      simp only [Except.ok.injEq] at ha
      subst ha
      exact not_lt.mp hnn

/-- C10 witness: a schema-valid request with initial balance 0 is not
rejected for a negative balance and the created account starts at 0. -/
theorem negative_initial_balance_branch_unreachable_witness :
    (create_account { accounts := [], transactions := [] }
        ⟨"ACC1", "alice", 0⟩).2 ≠ .error .invalidInitialBalance
    ∧ ∀ a : Account,
        (create_account { accounts := [], transactions := [] }
          ⟨"ACC1", "alice", 0⟩).2 = .ok a → 0 ≤ a.balance :=
  negative_initial_balance_branch_unreachable
    { accounts := [], transactions := [] } ⟨"ACC1", "alice", 0⟩
    (by unfold AccountCreate.valid; decide)

end TransactionApi
